import Mathlib

/-!
Verification of the dynamic-window viewing-period normalizer.

This development shallowly embeds the two Rust source files
`src/analysis/src/tsv_reader.rs` and `src/analysis/src/viewingperiod.rs`.

Modelling conventions:
* `chrono::DateTime<Utc>` and `chrono::Duration` are represented by their
  signed count of milliseconds since the Unix epoch (resp. signed
  millisecond length).  Every construction in the source produces whole
  milliseconds (`from_timestamp_millis`, the `%.3f` datetime format,
  `Duration::milliseconds`, and second-values floored to milliseconds), so
  this is exact for the program.
* Rust panics (`expect`) and chrono parse errors are modelled as `none`;
  a fatal cell error hence makes the whole row function return `none`.
* `f32`/`f64` cell values (`ber`, fractional-second durations) are
  modelled as exact rationals parsed from the decimal text (the
  kernel-reducible normalized fraction type `Frac` below); IEEE rounding
  and the exponent/inf/nan input forms are not modelled.
* `str::trim` is modelled over the character list with `Char.isWhitespace`
  (ASCII whitespace; non-ASCII Unicode whitespace is not modelled).
  `str::to_uppercase` is modelled with `Char.toUpper` (ASCII case mapping,
  enough for the alias vocabulary and status tokens).
-/

set_option maxRecDepth 20000

namespace Analysis

/-- `chrono::DateTime<Utc>` at millisecond granularity: milliseconds since
the Unix epoch. -/
structure DateTime where
  millis : Int
deriving DecidableEq

/-- `chrono::Duration` at millisecond granularity. -/
structure Duration where
  millis : Int
deriving DecidableEq

instance : HSub DateTime Duration DateTime :=
  ⟨fun t d => ⟨t.millis - d.millis⟩⟩

instance : HSub DateTime DateTime Duration :=
  ⟨fun a b => ⟨a.millis - b.millis⟩⟩

instance : HAdd DateTime Duration DateTime :=
  ⟨fun t d => ⟨t.millis + d.millis⟩⟩

/-- `chrono::DateTime::timestamp_millis`: milliseconds since the epoch. -/
def DateTime.timestamp_millis (t : DateTime) : Int := t.millis

/-- Euclid's algorithm with explicit structural fuel (the first argument
strictly decreases each step, so fuel `a + 1` always suffices); used so
that concrete fraction normalization reduces inside the kernel. -/
def natGcdFuel : Nat → Nat → Nat → Nat
  | 0, _, b => b
  | _ + 1, 0, b => b
  | fuel + 1, a + 1, b => natGcdFuel fuel (b % (a + 1)) (a + 1)

/-- Greatest common divisor, kernel-reducible. -/
def natGcd (a b : Nat) : Nat := natGcdFuel (a + 1) a b

/-- An exact rational in lowest terms, standing in for the `f32`/`f64`
values of the source (which only ever hold parsed decimal text here).
Always built through `mkFrac`, so structural equality is value
equality. -/
structure Frac where
  num : Int
  den : Nat
deriving DecidableEq

/-- Normalize `n / d` to lowest terms (`d` is always positive at every
use site). -/
def mkFrac (n : Int) (d : Nat) : Frac :=
  let g := natGcd n.natAbs d
  ⟨n / (g : Int), d / g⟩

/-- The `Status` enum of `viewingperiod.rs`. -/
inductive Status where
  | Match
  | NoMatch
  | NoData
  | NoSound
deriving DecidableEq

/-- The `ViewingPeriod` struct of `viewingperiod.rs`. -/
structure ViewingPeriod where
  provider : Option String
  status : Status
  user_id : String
  query_time : DateTime
  time_in_file : DateTime
  duration : Duration
  stream_id : Option String
  entry_id : Option String
  ber : Frac
  valid : Bool
deriving DecidableEq

/-- Days since 1970-01-01 of the civil date y-m-d (proleptic Gregorian);
the standard days-from-civil computation used to give meaning to the
calendar constructions (`with_ymd_and_hms`, the datetime parser, and the
`NaiveDateTime` range bounds) of the source. -/
def daysFromCivil (y m d : Int) : Int :=
  let yy := if m ≤ 2 then y - 1 else y
  let era := Int.fdiv yy 400
  let yoe := yy - era * 400
  let mp := Int.emod (m + 9) 12
  let doy := Int.tdiv (153 * mp + 2) 5 + d - 1
  let doe := yoe * 365 + Int.tdiv yoe 4 - Int.tdiv yoe 100 + doy
  era * 146097 + doe - 719468

/-- `Utc.with_ymd_and_hms(1970, 1, 1, 0, 0, 0)`: the Unix epoch. -/
def epochStart : DateTime := ⟨daysFromCivil 1970 1 1 * 86400000⟩

/-- Earliest epoch-millisecond value of `chrono::NaiveDateTime`
(midnight of `NaiveDate::MIN`, January 1 of astronomical year -262144). -/
def minDateMillis : Int := daysFromCivil (-262144) 1 1 * 86400000

/-- Latest epoch-millisecond value of `chrono::NaiveDateTime`
(end of `NaiveDate::MAX`, December 31 of year 262143). -/
def maxDateMillis : Int := (daysFromCivil 262143 12 31 + 1) * 86400000 - 1

/-- `Default for ViewingPeriod` of `viewingperiod.rs`. -/
def ViewingPeriod.default : ViewingPeriod :=
  { provider := none
    status := Status.NoMatch
    user_id := "NO_USER"
    query_time := epochStart
    time_in_file := epochStart
    duration := ⟨0⟩
    stream_id := some ""
    entry_id := some ""
    ber := mkFrac 0 1
    valid := false }

/-- `ViewingPeriod::end_time`. -/
def ViewingPeriod.end_time (vp : ViewingPeriod) : DateTime :=
  vp.query_time + vp.duration

/-- `ViewingPeriod::offset`. -/
def ViewingPeriod.offset (vp : ViewingPeriod) : Duration :=
  vp.query_time - vp.time_in_file

/-- Rust `str::to_uppercase` (ASCII case mapping), kernel-reducible. -/
def strToUpper (s : String) : String :=
  ⟨s.data.map Char.toUpper⟩

/-- Rust `str::trim` (whitespace off both ends), kernel-reducible. -/
def rustTrim (s : String) : String :=
  ⟨((s.data.dropWhile Char.isWhitespace).reverse.dropWhile Char.isWhitespace).reverse⟩

/-- `Status::from_str` of `viewingperiod.rs`: uppercase the input, then
match the numeric codes and the (underscored or not) token names. -/
def Status.from_str (s : String) : Option Status :=
  let u := strToUpper s
  if u = "0" ∨ u = "MATCH" then some Status.Match
  else if u = "1" ∨ u = "NO_MATCH" ∨ u = "NOMATCH" then some Status.NoMatch
  else if u = "2" ∨ u = "NO_DATA" ∨ u = "NODATA" then some Status.NoData
  else if u = "3" ∨ u = "NO_SOUND" ∨ u = "NOSOUND" then some Status.NoSound
  else none

/-- `millisec_to_sec` of `viewingperiod.rs`: note the source adds the raw
millisecond remainder `ms % 1000` to the quotient without dividing it by
1000 (Rust `/` and `%` on `i64` truncate toward zero, hence `Int.tdiv`
and `Int.tmod`; the two integer-valued `f64` casts and their sum are
exact). -/
def millisec_to_sec (ms : Int) : Frac :=
  mkFrac (Int.tdiv ms 1000 + Int.tmod ms 1000) 1

/-- Value of a digit list, most significant first. -/
def digitsVal (l : List Char) : Nat :=
  l.foldl (fun a c => a * 10 + (c.toNat - 48)) 0

/-- Rust `str::parse::<i64>`: optional sign, one or more ASCII digits,
whole-string, with the i64 range check (overflow is a parse error). -/
def parseI64 (s : String) : Option Int :=
  let cs := s.data
  let sr : Int × List Char :=
    match cs with
    | c :: t => if c = '+' then (1, t) else if c = '-' then (-1, t) else (1, cs)
    | [] => (1, cs)
  let sgn := sr.1
  let rest := sr.2
  if rest = [] then none
  else if rest.all Char.isDigit then
    let v : Int := sgn * (digitsVal rest : Int)
    if -(2 ^ 63) ≤ v ∧ v < 2 ^ 63 then some v else none
  else none

/-- Rust float parsing (`parse::<f64>` / `parse::<f32>`) restricted to the
plain decimal forms `[+-]digits[.digits]` / `[+-].digits`, as an exact
rational: the value is `sign * (intPart + fracPart / 10 ^ fracDigits)`.
Exponent, infinity and nan forms, and IEEE rounding, are not modelled. -/
def parseFloatAsRat (s : String) : Option Frac :=
  let cs := s.data
  let sr : Int × List Char :=
    match cs with
    | c :: t => if c = '+' then (1, t) else if c = '-' then (-1, t) else (1, cs)
    | [] => (1, cs)
  let sgn := sr.1
  let rest := sr.2
  let ipr := rest.span Char.isDigit
  match ipr.2 with
  | [] => if ipr.1 = [] then none else some (mkFrac (sgn * (digitsVal ipr.1 : Int)) 1)
  | c :: r2 =>
    if c = '.' then
      let fpr := r2.span Char.isDigit
      if fpr.2 = [] ∧ (ipr.1 ≠ [] ∨ fpr.1 ≠ []) then
        some (mkFrac
          (sgn * ((digitsVal ipr.1 : Int) * (10 : Int) ^ fpr.1.length +
            (digitsVal fpr.1 : Int)))
          ((10 : Nat) ^ fpr.1.length))
      else none
    else none

/-- `chrono::NaiveDateTime::from_timestamp_millis` followed by
`Utc.from_utc_datetime`: succeeds exactly on the `NaiveDateTime` range. -/
def fromTimestampMillis (m : Int) : Option DateTime :=
  if minDateMillis ≤ m ∧ m ≤ maxDateMillis then some ⟨m⟩ else none

/-- `parse_timestamp` of `tsv_reader.rs`. -/
def parse_timestamp (value : String) : Option DateTime :=
  (parseI64 value).bind fromTimestampMillis

/-- `duration_from_millis` of `tsv_reader.rs`. -/
def duration_from_millis (value : String) : Option Duration :=
  (parseI64 value).map fun n => ⟨n⟩

/-- `duration_from_seconds` of `tsv_reader.rs`: parse as float, multiply
by 1000, floor to integer milliseconds (floor of `q * 1000` computed as
floor division of the exact fraction). -/
def duration_from_seconds (value : String) : Option Duration :=
  (parseFloatAsRat value).map fun q => ⟨Int.fdiv (q.num * 1000) (q.den : Int)⟩

def isLeapYear (y : Int) : Bool :=
  (Int.emod y 4 == 0 && Int.emod y 100 != 0) || Int.emod y 400 == 0

def daysInMonth (y : Int) (m : Nat) : Nat :=
  if m = 2 then (if isLeapYear y then 29 else 28)
  else if m = 4 ∨ m = 6 ∨ m = 9 ∨ m = 11 then 30
  else 31

/-- Read a maximal nonempty run of digits. -/
def readNatDigits (cs : List Char) : Option (Nat × List Char) :=
  let p := cs.span Char.isDigit
  if p.1 = [] then none else some (digitsVal p.1, p.2)

def expectChar (c : Char) (cs : List Char) : Option (List Char) :=
  match cs with
  | d :: rest => if d = c then some rest else none
  | [] => none

/-- The optional `%.3f` item: either nothing, or a dot followed by exactly
three digits (milliseconds). -/
def readFrac3 (cs : List Char) : Option (Nat × List Char) :=
  match cs with
  | c :: rest =>
    if c = '.' then
      match rest with
      | a :: b :: c2 :: r =>
        if a.isDigit ∧ b.isDigit ∧ c2.isDigit then
          some (digitsVal [a, b, c2], r)
        else none
      | _ => none
    else some (0, cs)
  | [] => some (0, cs)

/-- `parse_datetime_str` of `tsv_reader.rs`: chrono format `%F %T%.3f`
(`YYYY-MM-DD HH:MM:SS` with optional `.fff`), interpreted as UTC, with
calendar validation and the `NaiveDate` year range.  Leap-second input
(second = 60) is not modelled. -/
def parse_datetime_str (value : String) : Option DateTime := do
  let cs := value.data
  let sr : Bool × List Char :=
    match cs with
    | c :: t => if c = '-' then (true, t) else (false, cs)
    | [] => (false, cs)
  let (y0, r1) ← readNatDigits sr.2
  let r2 ← expectChar '-' r1
  let (mo, r3) ← readNatDigits r2
  let r4 ← expectChar '-' r3
  let (da, r5) ← readNatDigits r4
  let r6 ← expectChar ' ' r5
  let (hh, r7) ← readNatDigits r6
  let r8 ← expectChar ':' r7
  let (mi, r9) ← readNatDigits r8
  let r10 ← expectChar ':' r9
  let (ss, r11) ← readNatDigits r10
  let (ms, r12) ← readFrac3 r11
  if r12 = [] then
    let y : Int := if sr.1 then -(y0 : Int) else (y0 : Int)
    if 1 ≤ mo ∧ mo ≤ 12 ∧ 1 ≤ da ∧ da ≤ daysInMonth y mo ∧
        hh ≤ 23 ∧ mi ≤ 59 ∧ ss ≤ 59 ∧ -262144 ≤ y ∧ y ≤ 262143 then
      some ⟨((daysFromCivil y (mo : Int) (da : Int)) * 86400 +
        (hh : Int) * 3600 + (mi : Int) * 60 + (ss : Int)) * 1000 + (ms : Int)⟩
    else none
  else none

/-- `set_status` of `tsv_reader.rs`: an unparsable status is logged and
the field is left unchanged. -/
def set_status (vp : ViewingPeriod) (value : String) : ViewingPeriod :=
  match Status.from_str value with
  | some st => { vp with status := st }
  | none => vp

/-- The characters stripped from both ends of every cell after `trim`:
single quote, double quote, space, comma (`removable_chars`). -/
def removableChars : List Char :=
  [Char.ofNat 39, Char.ofNat 34, Char.ofNat 32, Char.ofNat 44]

/-- Rust `str::trim_matches(removable_chars)`: strip the removable
characters from both ends. -/
def trimMatches (s : String) : String :=
  let l := s.data.dropWhile (fun c => removableChars.contains c)
  ((l.reverse.dropWhile (fun c => removableChars.contains c)).reverse).asString

/-- The per-cell preprocessing of `line_to_period`:
`raw_value.trim().trim_matches(removable_chars)`. -/
def trimValue (raw : String) : String :=
  trimMatches (rustTrim raw)

/-- Rust `str::split(char)` on a character list: always at least one
(possibly empty) piece. -/
def splitCharList (sep : Char) : List Char → List (List Char)
  | [] => [[]]
  | c :: rest =>
    match splitCharList sep rest with
    | [] => if c = sep then [[], []] else [[c]]
    | h :: t => if c = sep then [] :: h :: t else (c :: h) :: t

/-- Rust `str::split(char)` on a string. -/
def splitString (s : String) (sep : Char) : List String :=
  (splitCharList sep s.data).map List.asString

/-- The accumulator of the per-row fold of `line_to_period`: the record
under construction plus the pending `offset` and `end_time` locals. -/
structure RowState where
  vp : ViewingPeriod
  offset : Option Duration
  end_time : Option DateTime
deriving DecidableEq

/-- The state at the top of `line_to_period`: default record, no pending
offset, no pending end time. -/
def initState : RowState :=
  { vp := ViewingPeriod.default, offset := none, end_time := none }

/-- The `match key` dispatch of `line_to_period`: one branch per alias
group, `none` on a fatal cell parse failure, identity on an unrecognized
key (logged, ignored). -/
def applyColumn (st : RowState) (key value : String) : Option RowState :=
  if key = "status" ∨ key = "Status" then
    some { st with vp := set_status st.vp value }
  else if key = "userID" ∨ key = "rss_id" ∨ key = "DEVICE_ID" then
    some { st with vp := { st.vp with user_id := value } }
  else if key = "timeInFile" then
    (parse_timestamp value).map fun t => { st with vp := { st.vp with time_in_file := t } }
  else if key = "tStartMsec" ∨ key = "tStart" then
    (parse_timestamp value).map fun t => { st with vp := { st.vp with query_time := t } }
  else if key = "startTime" ∨ key = "start_ts" ∨ key = "START" then
    (parse_datetime_str value).map fun t => { st with vp := { st.vp with query_time := t } }
  else if key = "durationMsec" then
    (duration_from_millis value).map fun d => { st with vp := { st.vp with duration := d } }
  else if key = "duration" then
    (duration_from_seconds value).map fun d => { st with vp := { st.vp with duration := d } }
  else if key = "stream_id" ∨ key = "Stream_id" ∨ key = "stream_name" ∨
      key = "name" ∨ key = "STREAM_LABEL" then
    some { st with vp := { st.vp with stream_id := some value } }
  else if key = "module_ref" then
    some { st with vp := { st.vp with provider := some value } }
  else if key = "period_id" ∨ key = "id" then
    some { st with vp := { st.vp with entry_id := some value } }
  else if key = "bitErrorRate" ∨ key = "ber" then
    (parseFloatAsRat value).map fun b => { st with vp := { st.vp with ber := b } }
  else if key = "valid" then
    some { st with vp := { st.vp with
      valid := value == "VALID" || value == "true" || value == "1" } }
  else if key = "offset" then
    (duration_from_millis value).map fun d => { st with offset := some d }
  else if key = "offset_s" ∨ key = "OFFSET" then
    (duration_from_seconds value).map fun d => { st with offset := some d }
  else if key = "endTime" ∨ key = "stop_ts" ∨ key = "END" then
    (parse_datetime_str value).map fun t => { st with end_time := some t }
  else
    some st

/-- The sentinel no-match tokens of the stream-id inference (the negation
of `!stream.is_empty() && stream != "0" && ...`). -/
def sentinelStream (s : String) : Prop :=
  s = "" ∨ s = "0" ∨ s = "NO_DATA" ∨ s = "NO_MATCH" ∨ s = "NO_SOUND"

instance (s : String) : Decidable (sentinelStream s) := by
  unfold sentinelStream
  infer_instance

/-- First derivation of `line_to_period`: if a pending offset is set,
`time_in_file := query_time - offset` (no guard on `query_time`). -/
def applyOffsetRule (st : RowState) : RowState :=
  match st.offset with
  | some d => { st with vp := { st.vp with time_in_file := st.vp.query_time - d } }
  | none => st

/-- Second derivation: if a pending end time is set,
`duration := end_time - query_time`. -/
def applyEndTimeRule (st : RowState) : RowState :=
  match st.end_time with
  | some e => { st with vp := { st.vp with duration := e - st.vp.query_time } }
  | none => st

/-- Third derivation: a set, non-sentinel `stream_id` forces
`status := Match`. -/
def applyStreamRule (st : RowState) : RowState :=
  match st.vp.stream_id with
  | some s => if sentinelStream s then st else { st with vp := { st.vp with status := Status.Match } }
  | none => st

/-- The three derivations run, in source order, after every column. -/
def applyDerivations (st : RowState) : RowState :=
  applyStreamRule (applyEndTimeRule (applyOffsetRule st))

/-- One iteration of the `for` loop of `line_to_period`: trim the raw
cell, dispatch on the key, then re-run the derivations. -/
def step (st : RowState) (kv : String × String) : Option RowState :=
  (applyColumn st kv.1 (trimValue kv.2)).map applyDerivations

/-- The `for` loop of `line_to_period` over the zipped header/value
pairs: left fold of `step`, aborting (`none`, a panic) on the first fatal
cell. -/
def foldSteps : RowState → List (String × String) → Option RowState
  | st, [] => some st
  | st, p :: rest =>
    match step st p with
    | none => none
    | some st2 => foldSteps st2 rest

/-- The whole loop of `line_to_period`, keeping the final loop state. -/
def lineToState (line : String) (header : List String) (sep : Char) : Option RowState :=
  foldSteps initState (header.zip (splitString line sep))

/-- `line_to_period` of `tsv_reader.rs`: `none` models a fatal cell parse
panic. -/
def line_to_period (line : String) (header : List String) (sep : Char) : Option ViewingPeriod :=
  (lineToState line header sep).map RowState.vp

/-- Rust `Path::file_name` on a path string (the `..` and `.` components
and trailing separators are modelled as in Rust by rejection/skipping). -/
def fileName (path : String) : Option String :=
  match ((splitString path (Char.ofNat 47)).filter (fun c => c ≠ "")).getLast? with
  | none => none
  | some name => if name = "." ∨ name = ".." then none else some name

/-- Rust `Path::extension`: the portion of the file name after the final
dot, none when there is no dot or the only dot starts the name. -/
def extension (path : String) : Option String :=
  (fileName path).bind fun name =>
    let rev := name.data.reverse
    let p := rev.span (fun c => c ≠ '.')
    match p.2 with
    | [] => none
    | _ :: before => if before = [] then none else some p.1.reverse.asString

/-- `separator` of `tsv_reader.rs`: extension `csv` is comma, `tsv` is
tab, anything else (or no extension) is none. -/
def separator (path : String) : Option Char :=
  match extension path with
  | none => none
  | some e =>
    if e = "csv" then some ','
    else if e = "tsv" then some (Char.ofNat 9)
    else none

/-- `read_periods` of `tsv_reader.rs` over an already-read list of lines:
first line is the header, each further line becomes one record; a missing
header or any fatal cell error is `none`. -/
def read_periods (lines : List String) (sep : Char) : Option (List ViewingPeriod) :=
  match lines with
  | [] => none
  | headerLine :: rest =>
    let header := splitString headerLine sep
    rest.mapM fun line => line_to_period line header sep

/-- `read` of `tsv_reader.rs`: resolve the separator from the path (a
fatal configuration error when unresolvable, before any line is looked
at), then read the rows. -/
def read (path : String) (lines : List String) : Option (List ViewingPeriod) :=
  (separator path).bind fun sep => read_periods lines sep

end Analysis

namespace Analysis

/-! ## Invariants of the per-row fold -/

/-- A set, non-sentinel stream id in the loop state comes with a `Match`
status. -/
def streamInv (st : RowState) : Prop :=
  ∀ s, st.vp.stream_id = some s → ¬ sentinelStream s → st.vp.status = Status.Match

/-- A pending offset in the loop state comes with
`time_in_file = query_time - offset`. -/
def offsetInv (st : RowState) : Prop :=
  ∀ d, st.offset = some d → st.vp.time_in_file = st.vp.query_time - d

theorem applyStreamRule_streamInv (st : RowState) : streamInv (applyStreamRule st) := by
  unfold streamInv applyStreamRule
  cases h : st.vp.stream_id with
  | none =>
    intro s hs hns
    rw [h] at hs
    cases hs
  | some s0 =>
    by_cases hs0 : sentinelStream s0
    · simp only [if_pos hs0]
      intro s hs hns
      rw [h] at hs
      exact absurd ((Option.some.inj hs) ▸ hs0) hns
    · simp only [if_neg hs0]
      intro s hs hns
      trivial

theorem applyDerivations_streamInv (st : RowState) : streamInv (applyDerivations st) :=
  applyStreamRule_streamInv _

theorem applyOffsetRule_offsetInv (st : RowState) : offsetInv (applyOffsetRule st) := by
  unfold offsetInv applyOffsetRule
  cases h : st.offset with
  | none =>
    intro d hd
    rw [h] at hd
    cases hd
  | some d0 =>
    intro d hd
    have h2 : (some d0 : Option Duration) = some d := hd
    rw [← Option.some.inj h2]

theorem applyEndTimeRule_preserve (st : RowState) :
    (applyEndTimeRule st).offset = st.offset ∧
    (applyEndTimeRule st).vp.time_in_file = st.vp.time_in_file ∧
    (applyEndTimeRule st).vp.query_time = st.vp.query_time ∧
    (applyEndTimeRule st).vp.stream_id = st.vp.stream_id := by
  unfold applyEndTimeRule
  cases h : st.end_time <;> exact ⟨rfl, rfl, rfl, rfl⟩

theorem applyStreamRule_preserve (st : RowState) :
    (applyStreamRule st).offset = st.offset ∧
    (applyStreamRule st).vp.time_in_file = st.vp.time_in_file ∧
    (applyStreamRule st).vp.query_time = st.vp.query_time := by
  unfold applyStreamRule
  cases h : st.vp.stream_id with
  | none => exact ⟨rfl, rfl, rfl⟩
  | some s =>
    by_cases hs : sentinelStream s <;> simp [hs]

theorem applyDerivations_offsetInv (st : RowState) : offsetInv (applyDerivations st) := by
  intro d hd
  unfold applyDerivations at hd ⊢
  have h1 := applyOffsetRule_offsetInv st
  have h2 := applyEndTimeRule_preserve (applyOffsetRule st)
  have h3 := applyStreamRule_preserve (applyEndTimeRule (applyOffsetRule st))
  rw [h3.1, h2.1] at hd
  rw [h3.2.1, h2.2.1, h3.2.2, h2.2.2.1]
  exact h1 d hd

/-- Every successful loop iteration produces a state of the shape
`applyDerivations x`: the derivations are the last thing each iteration
does. -/
theorem step_shape (st : RowState) (p : String × String) (st2 : RowState)
    (h : step st p = some st2) : ∃ x, st2 = applyDerivations x := by
  unfold step at h
  cases hc : applyColumn st p.1 (trimValue p.2) with
  | none => rw [hc] at h; cases h
  | some x =>
    rw [hc] at h
    exact ⟨x, (Option.some.inj h).symm⟩

theorem step_streamInv (st : RowState) (p : String × String) (st2 : RowState)
    (h : step st p = some st2) : streamInv st2 := by
  obtain ⟨x, rfl⟩ := step_shape st p st2 h
  exact applyDerivations_streamInv x

theorem step_offsetInv (st : RowState) (p : String × String) (st2 : RowState)
    (h : step st p = some st2) : offsetInv st2 := by
  obtain ⟨x, rfl⟩ := step_shape st p st2 h
  exact applyDerivations_offsetInv x

/-- An invariant that holds of the initial state and is established by
every successful iteration holds of the final state of the row loop. -/
theorem foldSteps_inv (P : RowState → Prop)
    (hstep : ∀ st p st2, step st p = some st2 → P st2) :
    ∀ (l : List (String × String)) (st0 stf : RowState), P st0 →
      foldSteps st0 l = some stf → P stf := by
  intro l
  induction l with
  | nil =>
    intro st0 stf h0 hf
    exact (Option.some.inj hf) ▸ h0
  | cons a t ih =>
    intro st0 stf h0 hf
    unfold foldSteps at hf
    cases hs : step st0 a with
    | none => rw [hs] at hf; cases hf
    | some s1 =>
      rw [hs] at hf
      exact ih s1 stf (hstep st0 a s1 hs) hf

theorem initState_streamInv : streamInv initState := by
  intro s hs hns
  have h2 : (some "" : Option String) = some s := hs
  exact absurd ((Option.some.inj h2) ▸ Or.inl rfl) hns

theorem initState_offsetInv : offsetInv initState := by
  intro d hd
  cases hd

/-! ## The claims -/

/-- Claim C1: for every header/row pair, if after processing all columns
the record's `stream_id` is present, non-empty and not one of the sentinel
tokens "0", "NO_DATA", "NO_MATCH", "NO_SOUND", then the record's status is
`Match`, regardless of what any status column in the row contained (the
inference re-runs after every column, including after the last one). -/
theorem c1_stream_id_forces_match (sep : Char) (line : String) (header : List String)
    (vp : ViewingPeriod) (s : String)
    (hrow : line_to_period line header sep = some vp)
    (hs : vp.stream_id = some s) (hns : ¬ sentinelStream s) :
    vp.status = Status.Match := by
  unfold line_to_period at hrow
  cases hst : lineToState line header sep with
  | none => rw [hst] at hrow; cases hrow
  | some st =>
    rw [hst] at hrow
    have hvp : st.vp = vp := Option.some.inj hrow
    unfold lineToState at hst
    have hP := foldSteps_inv streamInv step_streamInv _ initState st
      initState_streamInv hst
    rw [← hvp] at hs ⊢
    exact hP s hs hns

/-- Witness for C1 at a concrete row: a lone non-sentinel stream id
yields status `Match`. -/
theorem c1_witness :
    ∃ vp, line_to_period "329" ["stream_id"] ',' = some vp ∧
      vp.status = Status.Match := by
  have h : line_to_period "329" ["stream_id"] ',' =
      some { provider := none, status := Status.Match, user_id := "NO_USER",
             query_time := ⟨0⟩, time_in_file := ⟨0⟩, duration := ⟨0⟩,
             stream_id := some "329", entry_id := some "", ber := mkFrac 0 1,
             valid := false } := by decide
  exact ⟨_, h, c1_stream_id_forces_match ',' "329" ["stream_id"] _ "329" h
    (by decide) (by decide)⟩

/-- Counterexample to claim C2 as stated: in the row "329,NO_MATCH" under
header stream_id,status, the status column comes after the stream_id
column and parses successfully to `NoMatch`, yet the final status is
`Match`, not the later explicitly parsed status. -/
theorem c2_counterexample :
    (line_to_period "329,NO_MATCH" ["stream_id", "status"] ',').map
        ViewingPeriod.status = some Status.Match ∧
    Status.from_str "NO_MATCH" = some Status.NoMatch := by decide

/-- Claim C2 (amended): when the loop state's `stream_id` is a
non-sentinel value, processing a status column — even one that parses
successfully to a non-Match status — cannot leave a non-Match status: the
stream-id inference re-runs after every column and forces `Match` again
(the inference wins, not the last explicit write). -/
theorem c2_inference_overrides_later_status (st : RowState) (k v : String)
    (st2 : RowState) (s : String) (sv : Status)
    (_hk : k = "status" ∨ k = "Status")
    (_hv : Status.from_str (trimValue v) = some sv)
    (_hsv : sv ≠ Status.Match)
    (hstep : step st (k, v) = some st2)
    (hs : st2.vp.stream_id = some s) (hns : ¬ sentinelStream s) :
    st2.vp.status = Status.Match := by
  obtain ⟨x, rfl⟩ := step_shape st (k, v) st2 hstep
  exact applyDerivations_streamInv x s hs hns

/-- Witness for C2 (amended) at a concrete state: stream id "329" already
set, then a "status" column holding "NO_MATCH". -/
theorem c2_witness :
    ∃ st2, step { vp := { ViewingPeriod.default with stream_id := some "329" },
                  offset := none, end_time := none } ("status", "NO_MATCH") =
        some st2 ∧
      st2.vp.status = Status.Match := by
  have h : step { vp := { ViewingPeriod.default with stream_id := some "329" },
                  offset := none, end_time := none } ("status", "NO_MATCH") =
      some { vp := { provider := none, status := Status.Match,
                     user_id := "NO_USER", query_time := ⟨0⟩,
                     time_in_file := ⟨0⟩, duration := ⟨0⟩,
                     stream_id := some "329", entry_id := some "", ber := mkFrac 0 1,
                     valid := false },
             offset := none, end_time := none } := by decide
  exact ⟨_, h, c2_inference_overrides_later_status _ "status" "NO_MATCH" _ "329"
    Status.NoMatch (Or.inl rfl) (by decide) (by decide) h (by decide) (by decide)⟩

/-- Counterexample to claim C3 as stated: the status parser is neither
case-sensitive nor limited to the four token names — the numeric code "0"
and the lowercase "match" both parse successfully (to `Match`). -/
theorem c3_counterexample :
    Status.from_str "0" = some Status.Match ∧
    Status.from_str "match" = some Status.Match ∧
    ¬ ("0" = "MATCH" ∨ "0" = "NO_MATCH" ∨ "0" = "NO_DATA" ∨ "0" = "NO_SOUND") := by
  decide

/-- Claim C3 (amended): the status cell parser succeeds exactly on the
strings whose ASCII-uppercase form is one of "0", "MATCH", "1",
"NO_MATCH", "NOMATCH", "2", "NO_DATA", "NODATA", "3", "NO_SOUND",
"NOSOUND"; on failure the record's status field is left unchanged and row
processing continues (a status column never aborts the row). -/
theorem c3_status_parser_characterization :
    (∀ s : String, (Status.from_str s).isSome = true ↔
      strToUpper s ∈ ["0", "MATCH", "1", "NO_MATCH", "NOMATCH", "2",
        "NO_DATA", "NODATA", "3", "NO_SOUND", "NOSOUND"]) ∧
    (∀ (vp : ViewingPeriod) (v : String), Status.from_str v = none →
      set_status vp v = vp) ∧
    (∀ (st : RowState) (v : String), (step st ("status", v)).isSome = true ∧
      (step st ("Status", v)).isSome = true) := by
  refine ⟨?_, ?_, ?_⟩
  · intro s
    simp only [Status.from_str]
    split_ifs with h1 h2 h3 h4 <;>
      simp_all [List.mem_cons, List.not_mem_nil] <;> tauto
  · intro vp v h
    simp [set_status, h]
  · intro st v
    constructor <;> simp [step, applyColumn, Option.isSome_map]

/-- Witness for C3 (amended) at the concrete unrecognized status value
"purple": the parser fails, the field is left unchanged, and a status
column never aborts the row. -/
theorem c3_witness :
    set_status ViewingPeriod.default "purple" = ViewingPeriod.default ∧
    (step initState ("status", "purple")).isSome = true :=
  ⟨c3_status_parser_characterization.2.1 ViewingPeriod.default "purple"
     (by decide),
   (c3_status_parser_characterization.2.2 initState "purple").1⟩

/-- Counterexample to claim C4 as stated: the row "1000,500" under header
timeInFile,offset sets an offset but never assigns query_time, yet the
parsed time_in_file (epoch+1000ms) IS overwritten by the derivation, to
default-query-time minus offset = epoch-500ms. -/
theorem c4_counterexample :
    (line_to_period "1000,500" ["timeInFile", "offset"] ',').map
        ViewingPeriod.time_in_file = some ⟨-500⟩ ∧
    parse_timestamp "1000" = some ⟨1000⟩ := by decide

/-- Claim C4 (amended): the derivation `time_in_file := query_time -
offset` is applied whenever a pending offset has been set, with no guard
on whether query_time was assigned in the row: at every point of the row
loop at which the pending offset is set (in particular at its end),
`time_in_file = query_time - offset` holds for the current (possibly
still default) query_time, so a time_in_file parsed from a timeInFile
column is overwritten even in a row that never assigns query_time. -/
theorem c4_offset_rule_unguarded (line : String) (header : List String)
    (sep : Char) (st : RowState) (d : Duration)
    (hrow : lineToState line header sep = some st)
    (hoff : st.offset = some d) :
    st.vp.time_in_file = st.vp.query_time - d := by
  unfold lineToState at hrow
  exact foldSteps_inv offsetInv step_offsetInv _ initState st
    initState_offsetInv hrow d hoff

/-- Witness for C4 (amended) on the concrete row "1000,500" under header
timeInFile,offset. -/
theorem c4_witness :
    ∃ st, lineToState "1000,500" ["timeInFile", "offset"] ',' = some st ∧
      st.vp.time_in_file = st.vp.query_time - Duration.mk 500 := by
  have h : lineToState "1000,500" ["timeInFile", "offset"] ',' =
      some { vp := { provider := none, status := Status.NoMatch,
                     user_id := "NO_USER", query_time := ⟨0⟩,
                     time_in_file := ⟨-500⟩, duration := ⟨0⟩,
                     stream_id := some "", entry_id := some "", ber := mkFrac 0 1,
                     valid := false },
             offset := some ⟨500⟩, end_time := none } := by decide
  exact ⟨_, h, c4_offset_rule_unguarded "1000,500" ["timeInFile", "offset"]
    ',' _ (Duration.mk 500) h (by decide)⟩

/-- The header of the spec's worked example (also the source's
`test_parse_match` test). -/
def exampleHeader : String :=
  "id,status,period_id,stream_id,timeInFile,tStartMsec,tEndMsec,durationMsec,bitErrorRate,nMatches,userID,valid,created,client_query_id,published_ts"

/-- The data row of the spec's worked example. -/
def exampleLine : String :=
  "5262783672,0,1672616922000|8d542b02585730ca24c2b96845ef9566|329,329,1672617736352,1672617824041,1672617836969,12928,0.247597,2,169808,1,2023-01-02 04:43:05,156521803,1672641842709"

/-- Counterexample to claim C5 as stated: on the example row the
normalized record's query_time is epoch-millis 1672617824041 (the
tStartMsec cell), not 1672617736352 (which is the timeInFile cell). -/
theorem c5_counterexample :
    (line_to_period exampleLine (splitString exampleHeader ',') ',').map
        (fun vp => vp.query_time.timestamp_millis) = some 1672617824041 ∧
    (1672617824041 : Int) ≠ 1672617736352 := by decide

/-- Claim C5 (amended): normalizing the example row against the example
15-column header yields user_id "169808", stream_id Some "329", entry_id
Some "1672616922000|8d542b02585730ca24c2b96845ef9566|329", query_time =
epoch-millis 1672617824041 (1672617736352 is the time_in_file), duration
12928 ms, ber = 0.247597, valid true, status Match. -/
theorem c5_example_row :
    line_to_period exampleLine (splitString exampleHeader ',') ',' =
      some { provider := none, status := Status.Match, user_id := "169808",
             query_time := ⟨1672617824041⟩,
             time_in_file := ⟨1672617736352⟩, duration := ⟨12928⟩,
             stream_id := some "329",
             entry_id := some "1672616922000|8d542b02585730ca24c2b96845ef9566|329",
             ber := mkFrac 247597 1000000, valid := true } := by decide

/-- Claim C6: delimiter resolution looks only at the (case-sensitively
matched) file extension: "csv" gives comma, "tsv" gives tab (character 9),
any other or missing extension resolves to no separator, and `read` then
fails regardless of the file's lines, i.e. before any row is read; the
".txt" example has extension "txt". -/
theorem c6_delimiter_resolution :
    (∀ path : String, extension path = some "csv" → separator path = some ',') ∧
    (∀ path : String, extension path = some "tsv" →
      separator path = some (Char.ofNat 9)) ∧
    (∀ (path e : String), extension path = some e → e ≠ "csv" → e ≠ "tsv" →
      separator path = none) ∧
    (∀ path : String, extension path = none → separator path = none) ∧
    (∀ (path : String) (lines : List String), separator path = none →
      read path lines = none) ∧
    extension "data.txt" = some "txt" := by
  refine ⟨?_, ?_, ?_, ?_, ?_, by decide⟩
  · intro path h
    simp [separator, h]
  · intro path h
    simp [separator, h]
  · intro path e h h1 h2
    simp [separator, h, h1, h2]
  · intro path h
    simp [separator, h]
  · intro path lines h
    simp [read, h]

/-- Witness for C6: a ".csv" path resolves to comma, and reading a
".txt" path fails whatever the lines are. -/
theorem c6_witness :
    separator "a.csv" = some ',' ∧ read "data.txt" ["h", "row"] = none :=
  ⟨c6_delimiter_resolution.1 "a.csv" (by decide),
   c6_delimiter_resolution.2.2.2.2.1 "data.txt" ["h", "row"]
     (c6_delimiter_resolution.2.2.1 "data.txt" "txt" (by decide) (by decide)
       (by decide))⟩

/-- Claim C7 is a code bug: `millisec_to_sec` adds the raw millisecond
remainder instead of its thousandth, so a 12928 ms duration is rendered
as the number 940 (printed "940.000"), not 12.928 = 12928/1000 as the
display of seconds with 3 decimals intends. -/
theorem c7_millisec_to_sec_bug :
    millisec_to_sec 12928 = mkFrac 940 1 ∧
    millisec_to_sec 12928 ≠ mkFrac 12928 1000 := by decide

/-- Claim C8: every string that parses as an i64 within the
representable `NaiveDateTime` range round-trips through the
timestamp-from-epoch-millis parser: re-deriving epoch milliseconds from
the parsed timestamp returns exactly the parsed integer. -/
theorem c8_timestamp_roundtrip (s : String) (m : Int)
    (hp : parseI64 s = some m)
    (hr : minDateMillis ≤ m ∧ m ≤ maxDateMillis) :
    ∃ t, parse_timestamp s = some t ∧ t.timestamp_millis = m := by
  refine ⟨⟨m⟩, ?_, rfl⟩
  unfold parse_timestamp
  rw [hp]
  simp [fromTimestampMillis, hr.1, hr.2]

/-- Witness for C8 at the concrete epoch-millisecond string of the worked
example. -/
theorem c8_witness :
    parseI64 "1672617736352" = some 1672617736352 ∧
    ∃ t, parse_timestamp "1672617736352" = some t ∧
      t.timestamp_millis = 1672617736352 :=
  ⟨by decide,
   c8_timestamp_roundtrip "1672617736352" 1672617736352 (by decide)
     (by decide)⟩

/-- Claim C9: for every constructed record, whatever its fields, the
derived views satisfy end_time = query_time + duration and offset =
query_time - time_in_file. -/
theorem c9_derived_views (vp : ViewingPeriod) :
    vp.end_time = vp.query_time + vp.duration ∧
    ViewingPeriod.offset vp = vp.query_time - vp.time_in_file :=
  ⟨rfl, rfl⟩

/-- The alias vocabulary of the `match key` dispatch: the exact strings
that select a canonical field-assignment action. -/
def recognizedKey (k : String) : Prop :=
  k = "status" ∨ k = "Status" ∨ k = "userID" ∨ k = "rss_id" ∨
  k = "DEVICE_ID" ∨ k = "timeInFile" ∨ k = "tStartMsec" ∨ k = "tStart" ∨
  k = "startTime" ∨ k = "start_ts" ∨ k = "START" ∨ k = "durationMsec" ∨
  k = "duration" ∨ k = "stream_id" ∨ k = "Stream_id" ∨ k = "stream_name" ∨
  k = "name" ∨ k = "STREAM_LABEL" ∨ k = "module_ref" ∨ k = "period_id" ∨
  k = "id" ∨ k = "bitErrorRate" ∨ k = "ber" ∨ k = "valid" ∨ k = "offset" ∨
  k = "offset_s" ∨ k = "OFFSET" ∨ k = "endTime" ∨ k = "stop_ts" ∨ k = "END"

instance (k : String) : Decidable (recognizedKey k) := by
  unfold recognizedKey
  infer_instance

/-- A cell under an unrecognized column name is logged and ignored: the
dispatch leaves the state unchanged (and does not fail). -/
theorem applyColumn_unrecognized (st : RowState) (k v : String)
    (h : ¬ recognizedKey k) : applyColumn st k v = some st := by
  unfold recognizedKey at h
  push_neg at h
  obtain ⟨h1, h2, h3, h4, h5, h6, h7, h8, h9, h10, h11, h12, h13, h14, h15,
    h16, h17, h18, h19, h20, h21, h22, h23, h24, h25, h26, h27, h28, h29,
    h30⟩ := h
  simp [applyColumn, h1, h2, h3, h4, h5, h6, h7, h8, h9, h10, h11, h12, h13,
    h14, h15, h16, h17, h18, h19, h20, h21, h22, h23, h24, h25, h26, h27,
    h28, h29, h30]

/-- The derivations do nothing on the initial state: no pending offset or
end time, and the default stream id is the empty-string sentinel. -/
theorem applyDerivations_initState : applyDerivations initState = initState := by
  decide

/-- A row whose zipped columns all carry unrecognized names leaves the
loop state at its initial value. -/
theorem foldSteps_unrecognized : ∀ (l : List (String × String)),
    (∀ p ∈ l, ¬ recognizedKey p.1) →
    foldSteps initState l = some initState := by
  intro l
  induction l with
  | nil => intro _; rfl
  | cons a t ih =>
    intro h
    have ha := h a (List.mem_cons_self a t)
    have hstep : step initState a = some initState := by
      unfold step
      rw [applyColumn_unrecognized initState a.1 (trimValue a.2) ha]
      simp [applyDerivations_initState]
    unfold foldSteps
    rw [hstep]
    exact ih fun p hp => h p (List.mem_cons_of_mem a hp)

/-- Claim C10: a data row none of whose columns carries a recognized
alias normalizes to the default record: provider none, status NoMatch,
user_id "NO_USER", query_time and time_in_file both the Unix epoch,
duration 0, stream_id Some "" (empty string, not none), entry_id Some "",
ber 0, valid false; the default stream_id Some "" does not trigger the
status-Match inference because the empty string is a sentinel. -/
theorem c10_unrecognized_row_default (sep : Char) (line : String)
    (header : List String) (h : ∀ k ∈ header, ¬ recognizedKey k) :
    line_to_period line header sep = some ViewingPeriod.default ∧
    ViewingPeriod.default.provider = none ∧
    ViewingPeriod.default.status = Status.NoMatch ∧
    ViewingPeriod.default.user_id = "NO_USER" ∧
    ViewingPeriod.default.query_time = ⟨0⟩ ∧
    ViewingPeriod.default.time_in_file = ⟨0⟩ ∧
    ViewingPeriod.default.duration = ⟨0⟩ ∧
    ViewingPeriod.default.stream_id = some "" ∧
    ViewingPeriod.default.entry_id = some "" ∧
    ViewingPeriod.default.ber = mkFrac 0 1 ∧
    ViewingPeriod.default.valid = false ∧
    sentinelStream "" := by
  refine ⟨?_, by decide, by decide, by decide, by decide, by decide,
    by decide, by decide, by decide, by decide, by decide, by decide⟩
  unfold line_to_period lineToState
  rw [foldSteps_unrecognized (header.zip (splitString line sep)) ?hz]
  · rfl
  · intro p hp
    exact h p.1 (List.of_mem_zip hp).1

/-- Witness for C10 on a concrete two-column row with unrecognized
names. -/
theorem c10_witness :
    line_to_period "x,y" ["foo", "bar"] ',' = some ViewingPeriod.default :=
  (c10_unrecognized_row_default ',' "x,y" ["foo", "bar"] (by decide)).1

end Analysis
